import Mathlib

/-
Verification development for the sl-feeds repository.

The repository has two Go source files in scope:
  * `fetch` package (file `src/unnamed/part_000`): the Freshness-Gated
    Fetcher, with `Repo`, `Repo.head`, `Repo.get`, `Repo.NewerChangeLog`,
    `Repo.ChangeLog` and the sentinel error `NotNewer`.
  * `cmd/sl-feeds/main.go`: the per-release orchestration loop inside
    `app.Action` (stat destination file, conditional/unconditional fetch,
    render via `changelog.ToFeed`, `os.Create` + `WriteRss`, `os.Chtimes`).

The `changelog` package (the Entry Parser and `ToFeed`) is not present in
the sources; where a claim depends on it, it is modelled from the spec and
marked as such in its doc comment.

The embedding is a shallow one: the effectful HTTP and filesystem
environment is passed as explicit function-valued state (`Env`, `World`),
Go's `time.Time` is modelled as an integer timestamp, and Go's multiple
return values `(entries, mtime, err)` become the `FetchTriple` structure.
-/

namespace SlFeeds

/-- Go `time.Time`, modelled as an integer timestamp (seconds since the
epoch); `t1.After t2` in Go is `t2 < t1` here. -/
abbrev Time := Int

/-- Go `time.Unix(0, 0)`, the zero timestamp the fetch functions return on
their error paths. -/
def unixZero : Time := 0

/-- A changelog entry. Modelled from the spec: the `changelog` package is
not under the provided sources. An entry is one dated block: the
date-header line (carrying the entry's declared date), the free-form
commentary lines, and the ordered package-change lines. -/
structure Entry where
  date : String
  commentary : List String
  changes : List String
deriving DecidableEq, Repr

/-- An HTTP response, as the fetch code observes it: the status code,
`resp.Request.URL` (the URL the error messages report), the value of the
`last-modified` header (`none` when the header is absent), and the body. -/
structure Response where
  statusCode : Nat
  requestURL : String
  lastModified : Option String
  body : String
deriving DecidableEq, Repr

/-- Outcome of `http.Head` / `http.Get`: a transport error or a response. -/
inductive HttpResult where
  | failure (msg : String)
  | success (resp : Response)
deriving DecidableEq, Repr

/-- The effectful environment of the fetch package: the HTTP transport
(`http.Head`, `http.Get`), `http.ParseTime` (which fails on a missing,
i.e. empty, or unparsable header value), and `changelog.Parse`
(repository code not under the provided sources, abstracted here as an
environment-supplied function from a body to entries or a parse error). -/
structure Env where
  head : String → HttpResult
  get : String → HttpResult
  parseTime : String → Option Time
  parse : String → Except String (List Entry)

/-- Go `resp.Header.Get("last-modified")`: the empty string when the
header is absent. -/
def headerGet : Option String → String
  | none => ""
  | some v => v

/-- The error values the fetch functions can return. In Go these are
distinct `error` values (`NotNewer` is a package-level sentinel compared
by identity at the call site); here they are distinct constructors. -/
inductive FetchError where
  | transport (msg : String)
  | status (code : Nat) (url : String)
  | timeParse
  | parse (msg : String)
  | notNewer
deriving DecidableEq, Repr

/-- The Go triple `([]changelog.Entry, time.Time, error)` returned by both
fetch entry points; `entries = none` models a nil slice. -/
structure FetchTriple where
  entries : Option (List Entry)
  mtime : Time
  err : Option FetchError
deriving DecidableEq, Repr

/-- The `fetch.Repo` value. The fetch source file declares only the `URL`
field and builds every locator from it alone; `main.go` additionally sets
a `Release` field on construction. Both fields are carried here, and the
locator construction below follows the fetch source, which ignores the
release. -/
structure Repo where
  URL : String
  Release : String
deriving DecidableEq, Repr

/-- The locator the fetch package builds for a file: `r.URL + "/" + file`
(from `Repo.head` / `Repo.get` in the fetch source). -/
def Repo.target (r : Repo) (file : String) : String :=
  r.URL ++ "/" ++ file

/-- Go `r.head(file)`, i.e. `http.Head(r.URL + "/" + file)`. -/
def Repo.headReq (r : Repo) (env : Env) (file : String) : HttpResult :=
  env.head (Repo.target r file)

/-- Go `r.get(file)`, i.e. `http.Get(r.URL + "/" + file)`. -/
def Repo.getReq (r : Repo) (env : Env) (file : String) : HttpResult :=
  env.get (Repo.target r file)

/-- `Repo.ChangeLog`: unconditional fetch of `ChangeLog.txt`. Transcribed
from the fetch source: transport error, then non-200 status, then
`http.ParseTime` of the `last-modified` header, then `changelog.Parse` of
the body; a parse failure returns the already-extracted mtime, every
earlier failure returns `time.Unix(0, 0)`. -/
def Repo.ChangeLog (r : Repo) (env : Env) : FetchTriple :=
  match Repo.getReq r env "ChangeLog.txt" with
  | HttpResult.failure msg =>
      { entries := none, mtime := unixZero, err := some (FetchError.transport msg) }
  | HttpResult.success resp =>
      if resp.statusCode ≠ 200 then
        { entries := none, mtime := unixZero,
          err := some (FetchError.status resp.statusCode resp.requestURL) }
      else
        match env.parseTime (headerGet resp.lastModified) with
        | none =>
            { entries := none, mtime := unixZero, err := some FetchError.timeParse }
        | some mt =>
            match env.parse resp.body with
            | Except.error msg =>
                { entries := none, mtime := mt, err := some (FetchError.parse msg) }
            | Except.ok es =>
                { entries := some es, mtime := mt, err := none }

/-- `Repo.NewerChangeLog`: conditional fetch. Transcribed from the fetch
source: `http.Head`, status check, `http.ParseTime` of `last-modified`;
if `mtime.After(than)` it falls through to `Repo.ChangeLog`, otherwise it
returns the `NotNewer` sentinel with `time.Unix(0, 0)`. -/
def Repo.NewerChangeLog (r : Repo) (env : Env) (than : Time) : FetchTriple :=
  match Repo.headReq r env "ChangeLog.txt" with
  | HttpResult.failure msg =>
      { entries := none, mtime := unixZero, err := some (FetchError.transport msg) }
  | HttpResult.success resp =>
      if resp.statusCode ≠ 200 then
        { entries := none, mtime := unixZero,
          err := some (FetchError.status resp.statusCode resp.requestURL) }
      else
        match env.parseTime (headerGet resp.lastModified) with
        | none =>
            { entries := none, mtime := unixZero, err := some FetchError.timeParse }
        | some mt =>
            if than < mt then Repo.ChangeLog r env
            else { entries := none, mtime := unixZero, err := some FetchError.notNewer }

/-- Modelled from the spec: blank lines are ignored by the Entry Parser. -/
def isBlank (l : String) : Bool := l.trim = ""

/-- Modelled from the spec: one step of the block segmentation. Scanning
from the end of the document, a non-header line is prepended to the
pending block body; a date-header line closes the pending body into a
block. Lines before the first header remain pending and are dropped. -/
def splitStep (isHeader : String → Bool) (l : String)
    (acc : List (String × List String) × List String) :
    List (String × List String) × List String :=
  if isHeader l then ((l, acc.2) :: acc.1, []) else (acc.1, l :: acc.2)

/-- Modelled from the spec: the document is organised as consecutive
blocks, each introduced by a line matching the date-header pattern; all
subsequent non-header lines belong to that block until the next header or
the end of the stream (so a trailing unterminated block is still a
block). Returns the (header line, body lines) blocks in document order. -/
def splitBlocks (isHeader : String → Bool) (ls : List String) :
    List (String × List String) :=
  (ls.foldr (splitStep isHeader) ([], [])).1

/-- Modelled from the spec: within a block, blank lines are ignored and
each remaining line is classified as a package-change line or free-form
commentary; a block with no change lines is still an entry, with an empty
change-line sequence. -/
def mkEntry (isChange : String → Bool) (blk : String × List String) : Entry :=
  { date := blk.1
  , commentary := blk.2.filter (fun l => !(isBlank l) && !(isChange l))
  , changes := blk.2.filter (fun l => !(isBlank l) && isChange l) }

/-- The line sequence of a document, as a Go `bufio.Scanner` over the body
produces it: the empty document has no lines, and a trailing newline does
not create a trailing empty line. -/
def lines (doc : String) : List String :=
  if doc = "" then []
  else if doc.endsWith "\n" then (doc.splitOn "\n").dropLast
  else doc.splitOn "\n"

/-- Modelled from the spec: `changelog.Parse`, the Entry Parser (the
`changelog` package is not under the provided sources). It is
parameterised by the date-header recognizer and the package-change line
classifier, and transcribes the document's blocks into entries in
document order. -/
def Parse (isHeader isChange : String → Bool) (doc : String) : List Entry :=
  (splitBlocks isHeader (lines doc)).map (mkEntry isChange)

/-- A destination file's observable state: its content and its
modification timestamp (the Freshness Marker). -/
structure FileRecord where
  content : String
  mtime : Time
deriving DecidableEq, Repr

/-- The destination directory, as a path-keyed association list. -/
abbrev FS := List (String × FileRecord)

/-- Look a path up in the filesystem. -/
def FS.lookup : FS → String → Option FileRecord
  | [], _ => none
  | (q, r) :: rest, p => if q = p then some r else FS.lookup rest p

/-- Write a file record at a path (replacing any existing record). -/
def FS.set : FS → String → FileRecord → FS
  | [], p, r => [(p, r)]
  | (q, s) :: rest, p, r =>
      if q = p then (p, r) :: rest else (q, s) :: FS.set rest p r

/-- Go `os.Chtimes`: update only the modification timestamp of a path. -/
def FS.setMtime : FS → String → Time → FS
  | [], _, _ => []
  | (q, r) :: rest, p, t =>
      if q = p then (q, { r with mtime := t }) :: rest
      else (q, r) :: FS.setMtime rest p t

/-- Outcome of `os.Stat` on the destination file, as `main.go` inspects
it: a non-`IsNotExist` error, absence, or presence with a modification
time. -/
inductive StatOutcome where
  | statError
  | notExist
  | found (mtime : Time)
deriving DecidableEq, Repr

/-- The rendered feed value. `Title` is the field `main.go` assigns after
`ToFeed`; `Body` stands for the rest of the feed (link and items), which
the in-scope code never inspects. -/
structure Feed where
  Title : String
  Body : String
deriving DecidableEq, Repr

/-- The effectful environment of the orchestration loop in `main.go`:
the HTTP environment, the wall clock, and oracles for the fallible
filesystem calls (`os.Stat` errors other than absence, `os.Create`,
`WriteRss`, `os.Chtimes`), plus `changelog.ToFeed` and the RSS
serialisation (both in the `changelog` package, not under the provided
sources, abstracted as environment-supplied functions). -/
structure World where
  env : Env
  now : Time
  statErr : String → Bool
  createOk : String → Bool
  writeOk : String → Bool
  chtimesOk : String → Bool
  toFeed : String → List Entry → Except String Feed
  renderRss : Feed → String

/-- Go `os.Stat` on a path, as `main.go` branches on it. -/
def statFile (w : World) (fs : FS) (p : String) : StatOutcome :=
  if w.statErr p then StatOutcome.statError
  else
    match FS.lookup fs p with
    | none => StatOutcome.notExist
    | some r => StatOutcome.found r.mtime

/-- An error at one point of the per-release pipeline in `main.go`. -/
inductive RunError where
  | stat
  | fetch (e : FetchError)
  | render (msg : String)
  | create
  | write
  | chtimes
deriving DecidableEq, Repr

/-- An observable log emission of the loop: the (non-quiet) per-release
`processing` line, or a `log.Println(release, err)` failure line. -/
inductive LogEvent where
  | processing (url : String)
  | failure (release : String) (e : RunError)
deriving DecidableEq, Repr

/-- The outcome of one release's processing. -/
inductive Outcome where
  | ok
  | failed (e : RunError)
deriving DecidableEq, Repr

/-- One processed (mirror, release) pair and its outcome. -/
structure StepTrace where
  mirrorURL : String
  release : String
  outcome : Outcome
deriving DecidableEq, Repr

/-- A mirror from the TOML configuration: base URL, releases, and the
local file-name prefix ( `Prefix` in the Go source). -/
structure Mirror where
  URL : String
  Releases : List String
  pfx : String
deriving DecidableEq, Repr

/-- The destination path `filepath.Join(dest, mirror.Prefix+release+".rss")`. -/
def destPath (dest : String) (m : Mirror) (rel : String) : String :=
  dest ++ "/" ++ (m.pfx ++ rel ++ ".rss")

/-- The `fetch.Repo` value `main.go` constructs for a (mirror, release)
pair. -/
def mkRepo (m : Mirror) (rel : String) : Repo :=
  { URL := m.URL, Release := rel }

/-- The non-quiet `log.Printf("processing %q", repo.URL+"/"+repo.Release)`
line. -/
def procLog (quiet : Bool) (m : Mirror) (rel : String) : List LogEvent :=
  if quiet then [] else [LogEvent.processing (m.URL ++ "/" ++ rel)]

/-- The logging guard of `main.go`'s conditional-fetch error branch:
`!(err == fetch.ErrNotNewer && quiet)`. -/
def shouldLogFetchErr (quiet : Bool) (e : FetchError) : Bool :=
  !(decide (e = FetchError.notNewer) && quiet)

/-- The Feed Renderer and Persister steps of `main.go` (lines 163-185):
`changelog.ToFeed`, setting the feed title, `os.Create` (which truncates
the destination file and gives it the wall-clock time), `WriteRss`, and
`os.Chtimes(path, mtime, mtime)`; each failure logs the release and the
error and abandons the rest of the pipeline for this release. -/
def persistStep (w : World) (path : String) (pfx : String) (rel : String)
    (repo : Repo) (entries : List Entry) (mtime : Time) (fs : FS) :
    FS × List LogEvent × Outcome :=
  match w.toFeed (repo.URL ++ "/" ++ rel) entries with
  | Except.error msg =>
      (fs, [LogEvent.failure rel (RunError.render msg)],
       Outcome.failed (RunError.render msg))
  | Except.ok fd =>
      if w.createOk path then
        if w.writeOk path then
          if w.chtimesOk path then
            (FS.setMtime
               (FS.set (FS.set fs path { content := "", mtime := w.now }) path
                 { content := w.renderRss { fd with Title := "ChangeLog.txt for " ++ pfx ++ rel }
                 , mtime := w.now })
               path mtime,
             [], Outcome.ok)
          else
            (FS.set (FS.set fs path { content := "", mtime := w.now }) path
               { content := w.renderRss { fd with Title := "ChangeLog.txt for " ++ pfx ++ rel }
               , mtime := w.now },
             [LogEvent.failure rel RunError.chtimes],
             Outcome.failed RunError.chtimes)
        else
          (FS.set fs path { content := "", mtime := w.now },
           [LogEvent.failure rel RunError.write],
           Outcome.failed RunError.write)
      else
        (fs, [LogEvent.failure rel RunError.create],
         Outcome.failed (RunError.create))

/-- Handling of a fetch triple in the loop body: a fetch error is logged
(in the conditional branch, unless it is the `NotNewer` sentinel and
quiet operation was requested) and the release is abandoned; on success
the pipeline proceeds to render and persist. -/
def fetchedStep (w : World) (quiet : Bool) (dest : String) (m : Mirror)
    (rel : String) (fs : FS) (t : FetchTriple) (suppressible : Bool) :
    FS × List LogEvent × Outcome :=
  match t.err with
  | some e =>
      if shouldLogFetchErr (suppressible && quiet) e then
        (fs, procLog quiet m rel ++ [LogEvent.failure rel (RunError.fetch e)],
         Outcome.failed (RunError.fetch e))
      else
        (fs, procLog quiet m rel, Outcome.failed (RunError.fetch e))
  | none =>
      match persistStep w (destPath dest m rel) m.pfx rel (mkRepo m rel)
              ((t.entries).getD []) t.mtime fs with
      | (fs2, lg, oc) => (fs2, procLog quiet m rel ++ lg, oc)

/-- One iteration of the per-release loop in `main.go` (lines 127-186):
stat the destination file; on a non-`IsNotExist` stat error log and move
on; if the file is absent do the unconditional fetch, otherwise the
conditional fetch against the file's modification time; then render,
write, and stamp. -/
def processRelease (w : World) (quiet : Bool) (dest : String) (m : Mirror)
    (rel : String) (fs : FS) : FS × List LogEvent × Outcome :=
  match statFile w fs (destPath dest m rel) with
  | StatOutcome.statError =>
      (fs, procLog quiet m rel ++ [LogEvent.failure rel RunError.stat],
       Outcome.failed RunError.stat)
  | StatOutcome.notExist =>
      fetchedStep w quiet dest m rel fs (Repo.ChangeLog (mkRepo m rel) w.env) false
  | StatOutcome.found mt =>
      fetchedStep w quiet dest m rel fs
        (Repo.NewerChangeLog (mkRepo m rel) w.env mt) true

/-- The inner loop over one mirror's releases, threading the filesystem
and accumulating the log and one trace per release. -/
def runReleases (w : World) (quiet : Bool) (dest : String) (m : Mirror) :
    FS → List String → FS × List LogEvent × List StepTrace
  | fs, [] => (fs, [], [])
  | fs, rel :: rest =>
      match processRelease w quiet dest m rel fs with
      | (fs1, lg, oc) =>
          match runReleases w quiet dest m fs1 rest with
          | (fs2, lg2, tr2) =>
              (fs2, lg ++ lg2,
               { mirrorURL := m.URL, release := rel, outcome := oc } :: tr2)

/-- The outer loop over the configured mirrors. -/
def runMirrors (w : World) (quiet : Bool) (dest : String) :
    FS → List Mirror → FS × List LogEvent × List StepTrace
  | fs, [] => (fs, [], [])
  | fs, m :: rest =>
      match runReleases w quiet dest m fs m.Releases with
      | (fs1, lg, tr) =>
          match runMirrors w quiet dest fs1 rest with
          | (fs2, lg2, tr2) => (fs2, lg ++ lg2, tr ++ tr2)

/-- All configured (mirror URL, release) pairs, in configuration order. -/
def allPairs (mirrors : List Mirror) : List (String × String) :=
  mirrors.flatMap (fun m => m.Releases.map (fun rel => (m.URL, rel)))

lemma changeLog_err_ne_notNewer (env : Env) (r : Repo) :
    (Repo.ChangeLog r env).err ≠ some FetchError.notNewer := by
  unfold Repo.ChangeLog Repo.getReq
  cases env.get (Repo.target r "ChangeLog.txt") with
  | failure msg => simp
  | success resp =>
    by_cases h : resp.statusCode = 200
    · simp only [h, ne_eq, not_true_eq_false, if_false, ite_false]
      cases env.parseTime (headerGet resp.lastModified) with
      | none => simp
      | some mt =>
        cases env.parse resp.body with
        | error msg => simp
        | ok es => simp
    · simp [h]

/-- C1: for every knownFreshAsOf timestamp, once the metadata check has
produced a parseable remote timestamp on a 200 response, the conditional
fetch signals NotNewer exactly when the remote timestamp is not strictly
after knownFreshAsOf (equality included), and when it is strictly newer
the result is exactly the unconditional fetch's result for the same
locator. -/
theorem c1_conditional_fetch_gate
    (env : Env) (r : Repo) (than : Time) (resp : Response) (t : Time)
    (hhead : env.head (Repo.target r "ChangeLog.txt") = HttpResult.success resp)
    (hstatus : resp.statusCode = 200)
    (htime : env.parseTime (headerGet resp.lastModified) = some t) :
    ((Repo.NewerChangeLog r env than).err = some FetchError.notNewer ↔ t ≤ than)
    ∧ (t ≤ than →
        Repo.NewerChangeLog r env than
          = { entries := none, mtime := unixZero, err := some FetchError.notNewer })
    ∧ (than < t → Repo.NewerChangeLog r env than = Repo.ChangeLog r env) := by
  have hres : Repo.NewerChangeLog r env than
      = if than < t then Repo.ChangeLog r env
        else { entries := none, mtime := unixZero, err := some FetchError.notNewer } := by
    unfold Repo.NewerChangeLog Repo.headReq
    rw [hhead]
    simp [hstatus, htime]
  by_cases h : than < t
  · rw [hres, if_pos h]
    refine ⟨⟨?_, ?_⟩, fun hle => absurd h (not_lt.mpr hle), fun _ => rfl⟩
    · intro habs; exact absurd habs (changeLog_err_ne_notNewer env r)
    · intro hle; exact absurd h (not_lt.mpr hle)
  · rw [hres, if_neg h]
    exact ⟨⟨fun _ => not_lt.mp h, fun _ => rfl⟩, fun _ => rfl, fun hlt => absurd hlt h⟩

/-- A concrete HTTP response used by the claim witnesses: a 200 answer
whose last-modified header parses to the timestamp 5. -/
def respAt5 : Response :=
  { statusCode := 200, requestURL := "http://m/ChangeLog.txt"
  , lastModified := some "5", body := "B" }

/-- A concrete stand-in for http.ParseTime in witnesses: recognises the
literals the witness responses use and fails on everything else, in
particular on the empty string (the missing-header value). -/
def parseTimeLit (s : String) : Option Time :=
  if s = "5" then some 5 else if s = "7" then some 7 else none

/-- A concrete environment used by the claim witnesses: both requests
answer with `respAt5`, header values parse via `parseTimeLit`, and the
body parses to no entries. -/
def envAt5 : Env :=
  { head := fun _ => HttpResult.success respAt5
  , get := fun _ => HttpResult.success respAt5
  , parseTime := parseTimeLit
  , parse := fun _ => Except.ok [] }

/-- A concrete repo value as main.go constructs it. -/
def repo0 : Repo := { URL := "http://m", Release := "r" }

/-- C1 witness: in the concrete environment the remote timestamp equals
knownFreshAsOf, exercising the boundary case of the gate. -/
theorem c1_conditional_fetch_gate_witness :
    ((Repo.NewerChangeLog repo0 envAt5 5).err = some FetchError.notNewer
        ↔ (5 : Time) ≤ 5)
    ∧ ((5 : Time) ≤ 5 →
        Repo.NewerChangeLog repo0 envAt5 5
          = { entries := none, mtime := unixZero, err := some FetchError.notNewer })
    ∧ ((5 : Time) < 5 →
        Repo.NewerChangeLog repo0 envAt5 5 = Repo.ChangeLog repo0 envAt5) :=
  c1_conditional_fetch_gate envAt5 repo0 5 respAt5 5 rfl rfl (by decide)

/-- C5: on either entry point, once the response status is 200, a
last-modified header that fails to parse, and in particular a missing
header (which http.ParseTime, given the empty string, cannot parse), is a
hard failure: the result is the timeParse error with no entries and the
zero timestamp, never the NotNewer signal and never a fetched result. -/
theorem c5_unparsable_mtime_hard_failure
    (env : Env) (r : Repo) (than : Time) (respH respG : Response) :
    ((env.head (Repo.target r "ChangeLog.txt") = HttpResult.success respH →
      respH.statusCode = 200 →
      env.parseTime (headerGet respH.lastModified) = none →
      Repo.NewerChangeLog r env than
        = { entries := none, mtime := unixZero, err := some FetchError.timeParse })
    ∧ (env.parseTime "" = none →
       env.head (Repo.target r "ChangeLog.txt") = HttpResult.success respH →
       respH.statusCode = 200 →
       respH.lastModified = none →
       Repo.NewerChangeLog r env than
         = { entries := none, mtime := unixZero, err := some FetchError.timeParse })
    ∧ (env.get (Repo.target r "ChangeLog.txt") = HttpResult.success respG →
       respG.statusCode = 200 →
       env.parseTime (headerGet respG.lastModified) = none →
       Repo.ChangeLog r env
         = { entries := none, mtime := unixZero, err := some FetchError.timeParse })
    ∧ (env.parseTime "" = none →
       env.get (Repo.target r "ChangeLog.txt") = HttpResult.success respG →
       respG.statusCode = 200 →
       respG.lastModified = none →
       Repo.ChangeLog r env
         = { entries := none, mtime := unixZero, err := some FetchError.timeParse })) := by
  refine ⟨?_, ?_, ?_, ?_⟩
  · intro hhead hstatus htime
    unfold Repo.NewerChangeLog Repo.headReq
    rw [hhead]
    simp [hstatus, htime]
  · intro hempty hhead hstatus hmissing
    unfold Repo.NewerChangeLog Repo.headReq
    rw [hhead]
    simp [hstatus, hmissing, headerGet, hempty]
  · intro hget hstatus htime
    unfold Repo.ChangeLog Repo.getReq
    rw [hget]
    simp [hstatus, htime]
  · intro hempty hget hstatus hmissing
    unfold Repo.ChangeLog Repo.getReq
    rw [hget]
    simp [hstatus, hmissing, headerGet, hempty]

/-- A concrete HEAD response with no last-modified header. -/
def respNoHeader : Response :=
  { statusCode := 200, requestURL := "http://m/ChangeLog.txt"
  , lastModified := none, body := "" }

/-- A concrete GET response with an unparsable last-modified header. -/
def respBadHeader : Response :=
  { statusCode := 200, requestURL := "http://m/ChangeLog.txt"
  , lastModified := some "garbage", body := "B" }

/-- A concrete environment whose HEAD response carries no last-modified
header and whose GET response carries an unparsable one. -/
def envBadHeaders : Env :=
  { head := fun _ => HttpResult.success respNoHeader
  , get := fun _ => HttpResult.success respBadHeader
  , parseTime := parseTimeLit
  , parse := fun _ => Except.ok [] }

/-- C5 witness: in the concrete environment both entry points fail hard
with the timeParse error. -/
theorem c5_unparsable_mtime_hard_failure_witness :
    (Repo.NewerChangeLog repo0 envBadHeaders 3
       = { entries := none, mtime := unixZero, err := some FetchError.timeParse })
    ∧ (Repo.ChangeLog repo0 envBadHeaders
       = { entries := none, mtime := unixZero, err := some FetchError.timeParse }) := by
  refine ⟨?_, ?_⟩
  · exact (c5_unparsable_mtime_hard_failure envBadHeaders repo0 3 respNoHeader
      respBadHeader).2.1 (by decide) rfl rfl rfl
  · exact (c5_unparsable_mtime_hard_failure envBadHeaders repo0 3 respNoHeader
      respBadHeader).2.2.1 rfl rfl (by decide)

/-- C10: a body-parse failure of the unconditional fetch returns the
already-extracted remote timestamp with a nil entry slice and the parse
error; every other error result of either entry point carries the zero
timestamp time.Unix(0, 0) (the conditional fetch either returns the
unconditional fetch's result verbatim or a zero-timestamp result). -/
theorem c10_parse_failure_keeps_mtime :
    (∀ (env : Env) (r : Repo) (resp : Response) (t : Time) (msg : String),
      env.get (Repo.target r "ChangeLog.txt") = HttpResult.success resp →
      resp.statusCode = 200 →
      env.parseTime (headerGet resp.lastModified) = some t →
      env.parse resp.body = Except.error msg →
      Repo.ChangeLog r env
        = { entries := none, mtime := t, err := some (FetchError.parse msg) })
    ∧ (∀ (env : Env) (r : Repo) (e : FetchError),
        (Repo.ChangeLog r env).err = some e →
        (∀ msg, e ≠ FetchError.parse msg) →
        (Repo.ChangeLog r env).mtime = unixZero)
    ∧ (∀ (env : Env) (r : Repo) (than : Time),
        Repo.NewerChangeLog r env than = Repo.ChangeLog r env
        ∨ (Repo.NewerChangeLog r env than).mtime = unixZero) := by
  refine ⟨?_, ?_, ?_⟩
  · intro env r resp t msg hget hstatus htime hparse
    unfold Repo.ChangeLog Repo.getReq
    rw [hget]
    simp [hstatus, htime, hparse]
  · intro env r e
    unfold Repo.ChangeLog Repo.getReq
    repeat' split
    all_goals intro herr hne
    · rfl
    · rfl
    · rfl
    · exfalso
      simp only [Option.some.injEq] at herr
      exact hne _ herr.symm
    · exact Option.noConfusion herr
  · intro env r than
    unfold Repo.NewerChangeLog Repo.headReq
    repeat' split
    all_goals first
      | (left; rfl)
      | (right; rfl)

/-- A concrete environment whose GET succeeds with a parseable timestamp
but whose body fails to parse. -/
def envParseErr : Env :=
  { head := fun _ => HttpResult.success respAt5
  , get := fun _ => HttpResult.success respAt5
  , parseTime := parseTimeLit
  , parse := fun _ => Except.error "bad" }

/-- C10 witness: the parse-failure path keeps the extracted timestamp 5,
and a non-parse failure (the unparsable-header one) carries the zero
timestamp. -/
theorem c10_parse_failure_keeps_mtime_witness :
    (Repo.ChangeLog repo0 envParseErr
       = { entries := none, mtime := 5, err := some (FetchError.parse "bad") })
    ∧ ((Repo.ChangeLog repo0 envBadHeaders).mtime = unixZero) := by
  refine ⟨?_, ?_⟩
  · exact c10_parse_failure_keeps_mtime.1 envParseErr repo0 respAt5 5 "bad"
      rfl rfl (by decide) rfl
  · exact c10_parse_failure_keeps_mtime.2.1 envBadHeaders repo0
      FetchError.timeParse (by decide) (fun msg h => FetchError.noConfusion h)

lemma runReleases_traces (w : World) (quiet : Bool) (dest : String) (m : Mirror) :
    ∀ (rels : List String) (fs : FS),
      ((runReleases w quiet dest m fs rels).2.2).map (fun s => (s.mirrorURL, s.release))
        = rels.map (fun rel => (m.URL, rel)) := by
  intro rels
  induction rels with
  | nil => intro fs; rfl
  | cons rel rest ih =>
      intro fs
      simp only [runReleases]
      rcases hp : processRelease w quiet dest m rel fs with ⟨fs1, lg, oc⟩
      rcases hr : runReleases w quiet dest m fs1 rest with ⟨fs2, lg2, tr2⟩
      have := ih fs1
      rw [hr] at this
      simpa using this

lemma runMirrors_traces (w : World) (quiet : Bool) (dest : String) :
    ∀ (mirrors : List Mirror) (fs : FS),
      ((runMirrors w quiet dest fs mirrors).2.2).map (fun s => (s.mirrorURL, s.release))
        = allPairs mirrors := by
  intro mirrors
  induction mirrors with
  | nil => intro fs; rfl
  | cons m rest ih =>
      intro fs
      simp only [runMirrors]
      rcases hr : runReleases w quiet dest m fs m.Releases with ⟨fs1, lg, tr⟩
      rcases hm : runMirrors w quiet dest fs1 rest with ⟨fs2, lg2, tr2⟩
      have h1 := runReleases_traces w quiet dest m m.Releases fs
      rw [hr] at h1
      have h2 := ih fs1
      rw [hm] at h2
      simp only [allPairs, List.flatMap_cons]
      simp only [List.map_append]
      rw [h1, h2]
      simp [allPairs]

/-- C6: a non-success response status on either entry point yields a
failure value that carries both the status code and the offending
request URL with no entries, and such a failure never aborts the batch:
the orchestration loop still produces one trace for every configured
(mirror, release) pair. -/
theorem c6_status_error_carries_code_and_url :
    (∀ (env : Env) (r : Repo) (than : Time) (resp : Response),
      env.head (Repo.target r "ChangeLog.txt") = HttpResult.success resp →
      resp.statusCode ≠ 200 →
      Repo.NewerChangeLog r env than
        = { entries := none, mtime := unixZero
          , err := some (FetchError.status resp.statusCode resp.requestURL) })
    ∧ (∀ (env : Env) (r : Repo) (resp : Response),
      env.get (Repo.target r "ChangeLog.txt") = HttpResult.success resp →
      resp.statusCode ≠ 200 →
      Repo.ChangeLog r env
        = { entries := none, mtime := unixZero
          , err := some (FetchError.status resp.statusCode resp.requestURL) })
    ∧ (∀ (w : World) (quiet : Bool) (dest : String) (mirrors : List Mirror) (fs : FS),
        ((runMirrors w quiet dest fs mirrors).2.2).length = (allPairs mirrors).length) := by
  refine ⟨?_, ?_, ?_⟩
  · intro env r than resp hhead hne
    unfold Repo.NewerChangeLog Repo.headReq
    rw [hhead]
    simp [hne]
  · intro env r resp hget hne
    unfold Repo.ChangeLog Repo.getReq
    rw [hget]
    simp [hne]
  · intro w quiet dest mirrors fs
    have := congrArg List.length (runMirrors_traces w quiet dest mirrors fs)
    simpa using this

/-- A concrete 404 response. -/
def resp404 : Response :=
  { statusCode := 404, requestURL := "http://m/ChangeLog.txt"
  , lastModified := none, body := "" }

/-- A concrete environment in which every request answers 404. -/
def env404 : Env :=
  { head := fun _ => HttpResult.success resp404
  , get := fun _ => HttpResult.success resp404
  , parseTime := parseTimeLit
  , parse := fun _ => Except.ok [] }

/-- C6 witness: both entry points, against the 404 environment, report
the status failure carrying 404 and the request URL. -/
theorem c6_status_error_carries_code_and_url_witness :
    (Repo.NewerChangeLog repo0 env404 5
       = { entries := none, mtime := unixZero
         , err := some (FetchError.status 404 "http://m/ChangeLog.txt") })
    ∧ (Repo.ChangeLog repo0 env404
       = { entries := none, mtime := unixZero
         , err := some (FetchError.status 404 "http://m/ChangeLog.txt") }) :=
  ⟨c6_status_error_carries_code_and_url.1 env404 repo0 5 resp404 rfl (by decide),
   c6_status_error_carries_code_and_url.2.1 env404 repo0 resp404 rfl (by decide)⟩

lemma processRelease_found (w : World) (quiet : Bool) (dest : String)
    (m : Mirror) (rel : String) (fs : FS) (mt : Time)
    (hstat : statFile w fs (destPath dest m rel) = StatOutcome.found mt) :
    processRelease w quiet dest m rel fs
      = fetchedStep w quiet dest m rel fs
          (Repo.NewerChangeLog (mkRepo m rel) w.env mt) true := by
  unfold processRelease
  rw [hstat]

lemma processRelease_notExist (w : World) (quiet : Bool) (dest : String)
    (m : Mirror) (rel : String) (fs : FS)
    (hstat : statFile w fs (destPath dest m rel) = StatOutcome.notExist) :
    processRelease w quiet dest m rel fs
      = fetchedStep w quiet dest m rel fs
          (Repo.ChangeLog (mkRepo m rel) w.env) false := by
  unfold processRelease
  rw [hstat]

/-- C7: the NotNewer outcome is a value distinct from every failure value
(callers branch on it by identity), and the caller's quiet-mode guard
suppresses the log line exactly for NotNewer under quiet operation —
any other fetch failure in the conditional branch is logged even when
quiet was requested, while quiet plus NotNewer logs nothing at all. -/
theorem c7_not_newer_distinguished_quiet_suppression :
    (∀ (quiet : Bool) (e : FetchError),
        shouldLogFetchErr quiet e = false ↔ (e = FetchError.notNewer ∧ quiet = true))
    ∧ (∀ (msg : String) (code : Nat) (url : String) (msg2 : String),
        FetchError.notNewer ≠ FetchError.transport msg
        ∧ FetchError.notNewer ≠ FetchError.status code url
        ∧ FetchError.notNewer ≠ FetchError.timeParse
        ∧ FetchError.notNewer ≠ FetchError.parse msg2)
    ∧ (∀ (w : World) (dest : String) (m : Mirror) (rel : String) (fs : FS)
         (mt : Time) (e : FetchError),
        statFile w fs (destPath dest m rel) = StatOutcome.found mt →
        (Repo.NewerChangeLog (mkRepo m rel) w.env mt).err = some e →
        e ≠ FetchError.notNewer →
        LogEvent.failure rel (RunError.fetch e)
          ∈ (processRelease w true dest m rel fs).2.1)
    ∧ (∀ (w : World) (dest : String) (m : Mirror) (rel : String) (fs : FS)
         (mt : Time),
        statFile w fs (destPath dest m rel) = StatOutcome.found mt →
        (Repo.NewerChangeLog (mkRepo m rel) w.env mt).err = some FetchError.notNewer →
        (processRelease w true dest m rel fs).2.1 = []) := by
  refine ⟨?_, ?_, ?_, ?_⟩
  · intro quiet e
    cases quiet <;> simp [shouldLogFetchErr]
  · intro msg code url msg2
    refine ⟨?_, ?_, ?_, ?_⟩ <;> intro h <;> exact FetchError.noConfusion h
  · intro w dest m rel fs mt e hstat herr hne
    rw [processRelease_found w true dest m rel fs mt hstat]
    unfold fetchedStep
    rw [herr]
    have hl : shouldLogFetchErr true e = true := by
      simp [shouldLogFetchErr, hne]
    simp [hl, procLog]
  · intro w dest m rel fs mt hstat herr
    rw [processRelease_found w true dest m rel fs mt hstat]
    unfold fetchedStep
    rw [herr]
    have hl : shouldLogFetchErr true FetchError.notNewer = false := by
      simp [shouldLogFetchErr]
    simp [hl, procLog]

/-- A concrete destination directory state holding a previously rendered
feed for `repo0`'s release, with modification time 5. -/
def fsPrior : FS := [("d/p-r.rss", { content := "old", mtime := 5 })]

/-- The concrete mirror configuration the orchestration witnesses use. -/
def m0 : Mirror := { URL := "http://m", Releases := ["r"], pfx := "p-" }

/-- A concrete world whose remote answers 404 to everything. -/
def w404 : World :=
  { env := env404
  , now := 99
  , statErr := fun _ => false
  , createOk := fun _ => true
  , writeOk := fun _ => true
  , chtimesOk := fun _ => true
  , toFeed := fun _ _ => Except.ok { Title := "", Body := "FEED" }
  , renderRss := fun f => f.Body }

/-- C7 witness: with quiet requested, a 404 on the conditional branch is
still logged for its release. -/
theorem c7_not_newer_distinguished_quiet_suppression_witness :
    LogEvent.failure "r" (RunError.fetch (FetchError.status 404 "http://m/ChangeLog.txt"))
      ∈ (processRelease w404 true "d" m0 "r" fsPrior).2.1 :=
  c7_not_newer_distinguished_quiet_suppression.2.2.1 w404 "d" m0 "r" fsPrior 5
    (FetchError.status 404 "http://m/ChangeLog.txt")
    (by decide) (by decide) (by decide)

lemma persistStep_failed_logged (w : World) (path pfx rel : String)
    (repo : Repo) (entries : List Entry) (mtime : Time) (fs : FS) (e : RunError) :
    (persistStep w path pfx rel repo entries mtime fs).2.2 = Outcome.failed e →
    LogEvent.failure rel e ∈ (persistStep w path pfx rel repo entries mtime fs).2.1 := by
  unfold persistStep
  cases hf : w.toFeed (repo.URL ++ "/" ++ rel) entries with
  | error msg =>
      intro h
      simp only [Outcome.failed.injEq] at h
      subst h
      simp
  | ok fd =>
      by_cases hc : w.createOk path = true
      · by_cases hw : w.writeOk path = true
        · by_cases ht : w.chtimesOk path = true
          · simp [hc, hw, ht]
          · simp only [hc, hw, ht, Bool.false_eq_true, if_true, if_false, ite_true, ite_false]
            intro h
            simp only [Outcome.failed.injEq] at h
            subst h
            simp
        · simp only [hc, hw, Bool.false_eq_true, if_true, if_false, ite_true, ite_false]
          intro h
          simp only [Outcome.failed.injEq] at h
          subst h
          simp
      · simp only [hc, Bool.false_eq_true, if_false, ite_false]
        intro h
        simp only [Outcome.failed.injEq] at h
        subst h
        simp

lemma fetchedStep_failed_logged (w : World) (quiet : Bool) (dest : String)
    (m : Mirror) (rel : String) (fs : FS) (t : FetchTriple) (sup : Bool)
    (e : RunError) :
    (fetchedStep w quiet dest m rel fs t sup).2.2 = Outcome.failed e →
    e ≠ RunError.fetch FetchError.notNewer →
    LogEvent.failure rel e ∈ (fetchedStep w quiet dest m rel fs t sup).2.1 := by
  unfold fetchedStep
  cases ht : t.err with
  | some e2 =>
      by_cases hl : shouldLogFetchErr (sup && quiet) e2 = true
      · simp only [hl, if_true, ite_true]
        intro h hne
        simp only [Outcome.failed.injEq] at h
        subst h
        simp
      · simp only [hl, Bool.false_eq_true, if_false, ite_false]
        intro h hne
        exfalso
        simp only [Outcome.failed.injEq] at h
        subst h
        have he2 : e2 = FetchError.notNewer := by
          by_contra hx
          simp [shouldLogFetchErr, hx] at hl
        exact hne (by rw [he2])
  | none =>
      intro h hne
      exact List.mem_append_right _
        (persistStep_failed_logged w (destPath dest m rel) m.pfx rel
          (mkRepo m rel) ((t.entries).getD []) t.mtime fs e h)

lemma processRelease_failed_logged (w : World) (quiet : Bool) (dest : String)
    (m : Mirror) (rel : String) (fs : FS) (e : RunError) :
    (processRelease w quiet dest m rel fs).2.2 = Outcome.failed e →
    e ≠ RunError.fetch FetchError.notNewer →
    LogEvent.failure rel e ∈ (processRelease w quiet dest m rel fs).2.1 := by
  cases hs : statFile w fs (destPath dest m rel) with
  | statError =>
      unfold processRelease
      rw [hs]
      intro h hne
      simp only [Outcome.failed.injEq] at h
      subst h
      simp
  | notExist =>
      rw [processRelease_notExist w quiet dest m rel fs hs]
      exact fetchedStep_failed_logged w quiet dest m rel fs _ false e
  | found mt =>
      rw [processRelease_found w quiet dest m rel fs mt hs]
      exact fetchedStep_failed_logged w quiet dest m rel fs _ true e

lemma runReleases_failed_logged (w : World) (quiet : Bool) (dest : String)
    (m : Mirror) :
    ∀ (rels : List String) (fs : FS) (s : StepTrace) (e : RunError),
      s ∈ (runReleases w quiet dest m fs rels).2.2 →
      s.outcome = Outcome.failed e →
      e ≠ RunError.fetch FetchError.notNewer →
      LogEvent.failure s.release e ∈ (runReleases w quiet dest m fs rels).2.1 := by
  intro rels
  induction rels with
  | nil =>
      intro fs s e hmem
      simp [runReleases] at hmem
  | cons rel rest ih =>
      intro fs s e hmem hout hne
      simp only [runReleases] at hmem ⊢
      simp only [List.mem_cons] at hmem
      rcases hmem with rfl | hmem
      · exact List.mem_append_left _
          (processRelease_failed_logged w quiet dest m rel fs e hout hne)
      · exact List.mem_append_right _ (ih _ s e hmem hout hne)

lemma runMirrors_failed_logged (w : World) (quiet : Bool) (dest : String) :
    ∀ (mirrors : List Mirror) (fs : FS) (s : StepTrace) (e : RunError),
      s ∈ (runMirrors w quiet dest fs mirrors).2.2 →
      s.outcome = Outcome.failed e →
      e ≠ RunError.fetch FetchError.notNewer →
      LogEvent.failure s.release e ∈ (runMirrors w quiet dest fs mirrors).2.1 := by
  intro mirrors
  induction mirrors with
  | nil =>
      intro fs s e hmem
      simp [runMirrors] at hmem
  | cons m rest ih =>
      intro fs s e hmem hout hne
      simp only [runMirrors] at hmem ⊢
      rcases List.mem_append.mp hmem with hmem1 | hmem2
      · exact List.mem_append_left _
          (runReleases_failed_logged w quiet dest m m.Releases fs s e hmem1 hout hne)
      · exact List.mem_append_right _ (ih _ s e hmem2 hout hne)

/-- C9: the orchestration loop produces exactly one trace for every
configured (mirror, release) pair in configuration order, no matter what
fails — no per-release failure halts the batch — and every per-release
failure other than the quiet-suppressible NotNewer signal is logged with
its release identifier. -/
theorem c9_failures_isolated_per_release :
    (∀ (w : World) (quiet : Bool) (dest : String) (mirrors : List Mirror) (fs : FS),
        ((runMirrors w quiet dest fs mirrors).2.2).map (fun s => (s.mirrorURL, s.release))
          = allPairs mirrors)
    ∧ (∀ (w : World) (quiet : Bool) (dest : String) (mirrors : List Mirror)
         (fs : FS) (s : StepTrace) (e : RunError),
        s ∈ (runMirrors w quiet dest fs mirrors).2.2 →
        s.outcome = Outcome.failed e →
        e ≠ RunError.fetch FetchError.notNewer →
        LogEvent.failure s.release e ∈ (runMirrors w quiet dest fs mirrors).2.1) :=
  ⟨fun w quiet dest mirrors fs => runMirrors_traces w quiet dest mirrors fs,
   fun w quiet dest mirrors fs s e => runMirrors_failed_logged w quiet dest mirrors fs s e⟩

/-- A two-release mirror configuration for the batch witnesses. -/
def m2 : Mirror := { URL := "http://m", Releases := ["r1", "r2"], pfx := "" }

/-- C9 witness: in the 404 world both releases of the configuration are
processed (one trace each, in order) and the first release's status
failure is logged with its release identifier. -/
theorem c9_failures_isolated_per_release_witness :
    (((runMirrors w404 false "d" [] [m2]).2.2).map (fun s => (s.mirrorURL, s.release))
        = allPairs [m2])
    ∧ LogEvent.failure "r1" (RunError.fetch (FetchError.status 404 "http://m/ChangeLog.txt"))
        ∈ (runMirrors w404 false "d" [] [m2]).2.1 :=
  ⟨c9_failures_isolated_per_release.1 w404 false "d" [m2] [],
   c9_failures_isolated_per_release.2 w404 false "d" [m2] []
     { mirrorURL := "http://m", release := "r1"
     , outcome := Outcome.failed (RunError.fetch (FetchError.status 404 "http://m/ChangeLog.txt")) }
     (RunError.fetch (FetchError.status 404 "http://m/ChangeLog.txt"))
     (by decide) (by decide) (by decide)⟩

lemma FS.lookup_set (fs : FS) (p : String) (r : FileRecord) :
    FS.lookup (FS.set fs p r) p = some r := by
  induction fs with
  | nil => simp [FS.set, FS.lookup]
  | cons hd tl ih =>
      rcases hd with ⟨q, s⟩
      by_cases h : q = p
      · simp [FS.set, FS.lookup, h]
      · simp [FS.set, FS.lookup, h, ih]

lemma FS.lookup_setMtime (fs : FS) (p : String) (t : Time) (r : FileRecord)
    (h : FS.lookup fs p = some r) :
    FS.lookup (FS.setMtime fs p t) p = some { r with mtime := t } := by
  induction fs with
  | nil => simp [FS.lookup] at h
  | cons hd tl ih =>
      rcases hd with ⟨q, s⟩
      by_cases hq : q = p
      · simp [FS.lookup, hq] at h
        subst h
        simp [FS.setMtime, FS.lookup, hq]
      · simp [FS.lookup, hq] at h
        simp [FS.setMtime, FS.lookup, hq, ih h]

lemma FS.lookup_write_result (fs : FS) (p : String) (a b : FileRecord) (t : Time) :
    FS.lookup (FS.setMtime (FS.set (FS.set fs p a) p b) p t) p
      = some { b with mtime := t } :=
  FS.lookup_setMtime _ p t b (FS.lookup_set (FS.set fs p a) p b)

lemma persistStep_success (w : World) (path pfx rel : String) (repo : Repo)
    (entries : List Entry) (mtime : Time) (fs : FS) (fd : Feed)
    (hfeed : w.toFeed (repo.URL ++ "/" ++ rel) entries = Except.ok fd)
    (hc : w.createOk path = true) (hw : w.writeOk path = true)
    (hch : w.chtimesOk path = true) :
    persistStep w path pfx rel repo entries mtime fs
      = (FS.setMtime
           (FS.set (FS.set fs path { content := "", mtime := w.now }) path
             { content := w.renderRss { fd with Title := "ChangeLog.txt for " ++ pfx ++ rel }
             , mtime := w.now })
           path mtime,
         [], Outcome.ok) := by
  unfold persistStep
  rw [hfeed]
  simp [hc, hw, hch]

/-- A concrete 200 response whose last-modified header parses to 7. -/
def respAt7 : Response :=
  { statusCode := 200, requestURL := "http://m/ChangeLog.txt"
  , lastModified := some "7", body := "B" }

/-- A concrete environment answering with `respAt7` everywhere. -/
def envAt7 : Env :=
  { head := fun _ => HttpResult.success respAt7
  , get := fun _ => HttpResult.success respAt7
  , parseTime := parseTimeLit
  , parse := fun _ => Except.ok [] }

/-- A concrete world in which the fetch succeeds but WriteRss fails. -/
def wWriteFail : World :=
  { env := envAt7
  , now := 99
  , statErr := fun _ => false
  , createOk := fun _ => true
  , writeOk := fun _ => false
  , chtimesOk := fun _ => true
  , toFeed := fun _ _ => Except.ok { Title := "", Body := "FEED" }
  , renderRss := fun f => f.Body }

/-- C2 counterexample: a concrete run in which the fetch succeeds, the
destination already holds a prior feed (content "old", modification time
5), os.Create succeeds and WriteRss fails. The claim says the prior
content and timestamp survive; in fact the destination is left truncated
with the wall-clock creation time 99. -/
theorem c2_counterexample_write_failure_destroys_prior :
    FS.lookup (processRelease wWriteFail false "d" m0 "r" fsPrior).1 "d/p-r.rss"
      = some { content := "", mtime := 99 }
    ∧ FS.lookup (processRelease wWriteFail false "d" m0 "r" fsPrior).1 "d/p-r.rss"
      ≠ some { content := "old", mtime := 5 }
    ∧ FS.lookup fsPrior "d/p-r.rss" = some { content := "old", mtime := 5 } := by
  refine ⟨by decide, by decide, by decide⟩

/-- C2 (amended): when the full fetch succeeds but WriteRss fails, no
modification-time stamping is performed — the pipeline stops before
os.Chtimes, so the file's time is the wall-clock creation time, not the
fetched timestamp — but the destination file does not keep its prior
content: os.Create has already truncated it. -/
theorem c2_write_failure_skips_stamping_but_truncates
    (w : World) (quiet : Bool) (dest : String) (m : Mirror) (rel : String)
    (fs : FS) (mt : Time) (fd : Feed)
    (hstat : statFile w fs (destPath dest m rel) = StatOutcome.found mt)
    (herr : (Repo.NewerChangeLog (mkRepo m rel) w.env mt).err = none)
    (hfeed : w.toFeed ((mkRepo m rel).URL ++ "/" ++ rel)
        (((Repo.NewerChangeLog (mkRepo m rel) w.env mt).entries).getD [])
        = Except.ok fd)
    (hcreate : w.createOk (destPath dest m rel) = true)
    (hwrite : w.writeOk (destPath dest m rel) = false) :
    FS.lookup (processRelease w quiet dest m rel fs).1 (destPath dest m rel)
      = some { content := "", mtime := w.now }
    ∧ (processRelease w quiet dest m rel fs).2.2 = Outcome.failed RunError.write := by
  rw [processRelease_found w quiet dest m rel fs mt hstat]
  unfold fetchedStep
  rw [herr]
  unfold persistStep
  rw [hfeed]
  simp only [hcreate, hwrite, Bool.false_eq_true, if_true, if_false, ite_true, ite_false]
  exact ⟨FS.lookup_set fs (destPath dest m rel) _, trivial⟩

/-- C2 witness: the amended statement at the concrete write-failure
world. -/
theorem c2_write_failure_skips_stamping_but_truncates_witness :
    FS.lookup (processRelease wWriteFail false "d" m0 "r" fsPrior).1 (destPath "d" m0 "r")
      = some { content := "", mtime := 99 }
    ∧ (processRelease wWriteFail false "d" m0 "r" fsPrior).2.2
      = Outcome.failed RunError.write :=
  c2_write_failure_skips_stamping_but_truncates wWriteFail false "d" m0 "r"
    fsPrior 5 { Title := "", Body := "FEED" }
    (by decide) (by decide) rfl rfl rfl

/-- C4: after a successful write the persister stamps the destination
file's modification time with exactly the mtime the fetch returned, on
the persister step itself and end to end on both the file-absent
(unconditional fetch) and file-present (conditional fetch) branches; the
stamped time is the fetch timestamp for every wall-clock value, so it is
never the wall-clock write time. -/
theorem c4_stamp_equals_fetched_mtime :
    (∀ (w : World) (path pfx rel : String) (repo : Repo) (entries : List Entry)
       (mtime : Time) (fs : FS) (fd : Feed),
      w.toFeed (repo.URL ++ "/" ++ rel) entries = Except.ok fd →
      w.createOk path = true → w.writeOk path = true → w.chtimesOk path = true →
      FS.lookup (persistStep w path pfx rel repo entries mtime fs).1 path
        = some { content := w.renderRss { fd with Title := "ChangeLog.txt for " ++ pfx ++ rel }
               , mtime := mtime }
      ∧ (persistStep w path pfx rel repo entries mtime fs).2.2 = Outcome.ok)
    ∧ (∀ (w : World) (quiet : Bool) (dest : String) (m : Mirror) (rel : String)
         (fs : FS) (mt : Time) (fd : Feed),
        statFile w fs (destPath dest m rel) = StatOutcome.found mt →
        (Repo.NewerChangeLog (mkRepo m rel) w.env mt).err = none →
        w.toFeed ((mkRepo m rel).URL ++ "/" ++ rel)
            (((Repo.NewerChangeLog (mkRepo m rel) w.env mt).entries).getD [])
          = Except.ok fd →
        w.createOk (destPath dest m rel) = true →
        w.writeOk (destPath dest m rel) = true →
        w.chtimesOk (destPath dest m rel) = true →
        FS.lookup (processRelease w quiet dest m rel fs).1 (destPath dest m rel)
          = some { content := w.renderRss { fd with Title := "ChangeLog.txt for " ++ m.pfx ++ rel }
                 , mtime := (Repo.NewerChangeLog (mkRepo m rel) w.env mt).mtime })
    ∧ (∀ (w : World) (quiet : Bool) (dest : String) (m : Mirror) (rel : String)
         (fs : FS) (fd : Feed),
        statFile w fs (destPath dest m rel) = StatOutcome.notExist →
        (Repo.ChangeLog (mkRepo m rel) w.env).err = none →
        w.toFeed ((mkRepo m rel).URL ++ "/" ++ rel)
            (((Repo.ChangeLog (mkRepo m rel) w.env).entries).getD [])
          = Except.ok fd →
        w.createOk (destPath dest m rel) = true →
        w.writeOk (destPath dest m rel) = true →
        w.chtimesOk (destPath dest m rel) = true →
        FS.lookup (processRelease w quiet dest m rel fs).1 (destPath dest m rel)
          = some { content := w.renderRss { fd with Title := "ChangeLog.txt for " ++ m.pfx ++ rel }
                 , mtime := (Repo.ChangeLog (mkRepo m rel) w.env).mtime }) := by
  refine ⟨?_, ?_, ?_⟩
  · intro w path pfx rel repo entries mtime fs fd hfeed hc hw hch
    rw [persistStep_success w path pfx rel repo entries mtime fs fd hfeed hc hw hch]
    exact ⟨FS.lookup_write_result fs path _ _ mtime, rfl⟩
  · intro w quiet dest m rel fs mt fd hstat herr hfeed hc hw hch
    rw [processRelease_found w quiet dest m rel fs mt hstat]
    unfold fetchedStep
    rw [herr]
    rw [persistStep_success w (destPath dest m rel) m.pfx rel (mkRepo m rel)
      _ _ fs fd hfeed hc hw hch]
    exact FS.lookup_write_result fs (destPath dest m rel) _ _ _
  · intro w quiet dest m rel fs fd hstat herr hfeed hc hw hch
    rw [processRelease_notExist w quiet dest m rel fs hstat]
    unfold fetchedStep
    rw [herr]
    rw [persistStep_success w (destPath dest m rel) m.pfx rel (mkRepo m rel)
      _ _ fs fd hfeed hc hw hch]
    exact FS.lookup_write_result fs (destPath dest m rel) _ _ _

/-- A concrete world in which every step succeeds; the wall clock (99)
differs from the remote timestamp (7). -/
def wAllOk : World :=
  { env := envAt7
  , now := 99
  , statErr := fun _ => false
  , createOk := fun _ => true
  , writeOk := fun _ => true
  , chtimesOk := fun _ => true
  , toFeed := fun _ _ => Except.ok { Title := "", Body := "FEED" }
  , renderRss := fun f => f.Body }

/-- C4 witness: end to end on the conditional branch, the stored file
ends with the fetched timestamp 7, not the wall clock 99. -/
theorem c4_stamp_equals_fetched_mtime_witness :
    FS.lookup (processRelease wAllOk false "d" m0 "r" fsPrior).1 (destPath "d" m0 "r")
      = some { content := "FEED", mtime := 7 } := by
  have h := c4_stamp_equals_fetched_mtime.2.1 wAllOk false "d" m0 "r" fsPrior 5
    { Title := "", Body := "FEED" } (by decide) (by decide) rfl rfl rfl rfl
  simpa using h

/-- C3: evaluation at the failing input. The fetch package builds the
locator as repo URL + "/ChangeLog.txt" for both entry points: the release
never enters the remote locator, even though main.go constructs the Repo
with the release, so the locator the claim states (base URL + "/" +
release + "/ChangeLog.txt") is not the one used. The prefix part of the
claim does hold: it appears only in the local destination file name. -/
theorem c3_locator_ignores_release :
    Repo.target
        (mkRepo { URL := "http://slackware.osuosl.org"
                , Releases := ["slackware-14.2"], pfx := "alphageek-" }
          "slackware-14.2") "ChangeLog.txt"
      = "http://slackware.osuosl.org/ChangeLog.txt"
    ∧ "http://slackware.osuosl.org/ChangeLog.txt"
      ≠ "http://slackware.osuosl.org/slackware-14.2/ChangeLog.txt"
    ∧ destPath "/dest"
        { URL := "http://slackware.osuosl.org"
        , Releases := ["slackware-14.2"], pfx := "alphageek-" }
        "slackware-14.2"
      = "/dest/alphageek-slackware-14.2.rss"
    ∧ (∀ (env : Env) (r : Repo),
        Repo.headReq r env "ChangeLog.txt" = env.head (r.URL ++ "/" ++ "ChangeLog.txt")
        ∧ Repo.getReq r env "ChangeLog.txt" = env.get (r.URL ++ "/" ++ "ChangeLog.txt")) :=
  ⟨rfl, by decide, rfl, fun env r => ⟨rfl, rfl⟩⟩

lemma splitBlocks_map_fst (f : String → Bool) :
    ∀ ls : List String, (splitBlocks f ls).map Prod.fst = ls.filter f := by
  intro ls
  induction ls with
  | nil => rfl
  | cons l rest ih =>
      simp only [splitBlocks, List.foldr_cons, splitStep] at ih ⊢
      by_cases h : f l
      · simp [h, List.filter_cons, ih]
      · simp [h, List.filter_cons, ih]

/-- C8: the Entry Parser emits exactly the document's date-header blocks
as entries, in document order (one entry per header line, its date being
that header), with an empty document producing an empty entry sequence, a
block without change lines producing an entry with an empty change-line
sequence, and the parse being exactly the block segmentation (so the
trailing unterminated block is the final entry). -/
theorem c8_parser_one_entry_per_block :
    (∀ (isHeader isChange : String → Bool) (doc : String),
        (Parse isHeader isChange doc).map Entry.date = (lines doc).filter isHeader)
    ∧ (∀ (isHeader isChange : String → Bool), Parse isHeader isChange "" = [])
    ∧ (∀ (isChange : String → Bool) (hdr : String) (body : List String),
        body.all (fun l => !(isChange l)) = true →
        (mkEntry isChange (hdr, body)).changes = [])
    ∧ (∀ (isHeader isChange : String → Bool) (doc : String),
        Parse isHeader isChange doc
          = (splitBlocks isHeader (lines doc)).map (mkEntry isChange)) := by
  refine ⟨?_, ?_, ?_, ?_⟩
  · intro f g doc
    unfold Parse
    rw [List.map_map]
    have hcomp : (Entry.date ∘ mkEntry g) = Prod.fst := by
      funext b
      rfl
    rw [hcomp, splitBlocks_map_fst]
  · intro f g
    rfl
  · intro g hdr body hall
    unfold mkEntry
    refine List.filter_eq_nil_iff.mpr ?_
    intro a ha
    have hga := List.all_eq_true.mp hall a ha
    simp only [Bool.not_eq_true'] at hga
    simp [hga]
  · intro f g doc
    rfl

/-- A sample date-header recogniser for the parser witness. -/
def sampleHeader (l : String) : Bool := decide (l = "+--Mon")

/-- A sample package-change line classifier for the parser witness. -/
def sampleChange (l : String) : Bool := decide (l = "pkg/a.txz: Upgraded.")

/-- C8 witness: a commentary-only block yields an entry with an empty
change-line sequence. -/
theorem c8_parser_one_entry_per_block_witness :
    (["just commentary", ""].all (fun l => !(sampleChange l)) = true)
    ∧ (mkEntry sampleChange ("+--Mon", ["just commentary", ""])).changes = [] :=
  ⟨by decide,
   c8_parser_one_entry_per_block.2.2.1 sampleChange "+--Mon"
     ["just commentary", ""] (by decide)⟩

end SlFeeds
